import Mathlib

/-!
Shallow embedding of the fleet image distribution subsystem of m2deploy
(`pkg/ssh/distribute.go` and `pkg/k8s/k8s.go:GetWorkerIPs`).

External effects (SSH command execution, file stat, byte streams) are made
explicit: each embedded function takes an environment recording the outcome
of every external call it performs, in program order.  `Option String`
models a Go `error` value (`none` = `nil`).  Functions that perform remote
side effects additionally return a trace of the steps they executed, so
that "step X was never attempted" is expressible.
-/

set_option autoImplicit false

namespace M2Deploy

/-- A Go `error` value: `none` is `nil`, `some msg` an error with message `msg`. -/
abbrev GoErr := Option String

/-- `strings.Contains(s, pat)` from the Go standard library. -/
def goContains (s pat : String) : Bool := decide (pat.toList <:+: s.toList)

/-- `strings.ToLower` restricted to the ASCII letters the source compares against. -/
def goToLower (s : String) : String := String.mk (s.data.map Char.toLower)

/-- `List.dropWhile`, restated so that it reduces in the kernel. -/
def dropWhileList (p : Char → Bool) : List Char → List Char
  | [] => []
  | c :: cs => if p c then dropWhileList p cs else c :: cs

/-- `strings.TrimSpace`: strip whitespace from both ends. -/
def goTrimSpace (s : String) : String :=
  String.mk
    ((dropWhileList Char.isWhitespace
      ((dropWhileList Char.isWhitespace s.data).reverse)).reverse)

/-- Digit-string parser backing `goParseInt64`: all characters must be digits. -/
def parseAllDigits (cs : List Char) : Option Nat :=
  if cs.isEmpty then none
  else if cs.all Char.isDigit then
    some (cs.foldl (fun n c => n * 10 + (c.toNat - 48)) 0)
  else none

/-- `strconv.ParseInt(s, 10, 64)` with its error ignored, as in the source
(`remoteSize, _ := strconv.ParseInt(...)`): a syntax error yields `0`,
an out-of-range value is clamped to the `int64` bound. -/
def goParseInt64 (s : String) : Int :=
  let cs := s.toList
  let signed : Bool × List Char :=
    match cs with
    | '+' :: rest => (false, rest)
    | '-' :: rest => (true, rest)
    | _ => (false, cs)
  match parseAllDigits signed.2 with
  | none => 0
  | some n =>
    let v : Int := if signed.1 then -(n : Int) else (n : Int)
    if v < -(2 ^ 63) then -(2 ^ 63)
    else if v > 2 ^ 63 - 1 then 2 ^ 63 - 1
    else v

/-- `WorkerNode` from `distribute.go`: one distribution target. -/
structure WorkerNode where
  name : String
  ip : String
  reachable : Bool
  lastError : GoErr
deriving Repr, DecidableEq, Inhabited

/-- `DistributionResult` from `distribute.go` (the `Duration` field, wall-clock
time, is not modelled). -/
structure DistributionResult where
  worker : WorkerNode
  component : String
  success : Bool
  error : GoErr
deriving Repr, DecidableEq, Inhabited

/-- The `Distributor` policy fields from `distribute.go` (logger and SSH
connection parameters carry no claim-relevant state beyond the user name,
which only appears in the connectivity error message). -/
structure Distributor where
  parallel : Int
  retryCount : Int
  minWorkers : Int
  keepTarballs : Bool
  workerIPs : List String
deriving Repr, DecidableEq

instance instDecEqExcept {ε α : Type} [DecidableEq ε] [DecidableEq α] :
    DecidableEq (Except ε α) := fun x y =>
  match x, y with
  | .error a, .error b =>
    if h : a = b then .isTrue (by rw [h]) else .isFalse (by simp [h])
  | .ok a, .ok b =>
    if h : a = b then .isTrue (by rw [h]) else .isFalse (by simp [h])
  | .error _, .ok _ => .isFalse (by simp)
  | .ok _, .error _ => .isFalse (by simp)

/-- Environment of one `scpToWorker` call: the outcome of each external
operation it performs, in program order.  `checkOutput`/`checkErr` are the
combined output and error of the `stat -c%s` remote size query. -/
structure ScpEnv where
  localStat : Except String Int
  openErr : GoErr
  connectErr : GoErr
  sessionErr : GoErr
  stdinErr : GoErr
  startErr : GoErr
  copyErr : GoErr
  waitErr : GoErr
  checkOutput : String
  checkErr : GoErr
deriving Repr, DecidableEq

/-- `scpToWorker` from `distribute.go`: streams the file, then independently
queries the remote size, parses it with the error ignored, and compares it
against the local size. -/
def scpToWorker (env : ScpEnv) : GoErr :=
  match env.localStat with
  | .error e => some ("cannot stat local file: " ++ e)
  | .ok localSize =>
    match env.openErr with
    | some e => some ("cannot open local file: " ++ e)
    | none =>
      match env.connectErr with
      | some e => some ("SSH connection failed: " ++ e)
      | none =>
        match env.sessionErr with
        | some e => some ("cannot create SSH session: " ++ e)
        | none =>
          match env.stdinErr with
          | some e => some ("cannot create stdin pipe: " ++ e)
          | none =>
            match env.startErr with
            | some e => some ("cannot start SCP: " ++ e)
            | none =>
              match env.copyErr with
              | some e => some ("file copy failed: " ++ e)
              | none =>
                match env.waitErr with
                | some e => some ("SCP session failed: " ++ e)
                | none =>
                  match env.checkErr with
                  | some e => some ("cannot verify remote file: " ++ e)
                  | none =>
                    let remoteSize := goParseInt64 (goTrimSpace env.checkOutput)
                    if remoteSize ≠ localSize then
                      some ("size mismatch: local=" ++ toString localSize ++
                        " remote=" ++ toString remoteSize)
                    else none

/-- `VerifyImportOnWorker` from `distribute.go`.  `output`/`execErr` are the
combined output and error of the remote `ctr images list` command; on
success the target image name is looked up as a plain substring. -/
def VerifyImportOnWorker (imageName : String) (output : String) (execErr : GoErr) : GoErr :=
  match execErr with
  | some e => some ("failed to list images: " ++ e)
  | none =>
    if goContains output imageName then none
    else some ("image " ++ imageName ++ " not found in containerd")

/-- `importOnWorker` from `distribute.go`: runs the remote `ctr images import`
command and classifies failures by substring search on the lower-cased
combined output. -/
def importOnWorker (output : String) (execErr : GoErr) : GoErr :=
  match execErr with
  | none => none
  | some e =>
    let errStr := goToLower output
    if goContains errStr "no space left" then some "disk full on worker"
    else if goContains errStr "permission denied" then
      some "sudo access required for ctr command"
    else if goContains errStr "connection refused" then
      some "containerd not running on worker"
    else some ("import command failed: " ++ e)

/-- `CleanupOnWorker` from `distribute.go`: runs `rm -f` remotely, logs a
warning on failure, and returns the execution error unchanged. -/
def CleanupOnWorker (execErr : GoErr) : GoErr := execErr

/-- A remote side-effecting step of the per-node pipeline, recorded in the
execution trace of `DistributeToWorker`. -/
inductive Step where | transfer | imp | verify | cleanup
deriving Repr, DecidableEq

/-- Environment of one `DistributeToWorker` attempt: `tarballStat` is the
local `os.Stat` of the tarball (size only used for logging), `scp` the
environment of the `scpToWorker` call, then the combined output/error pairs
of the remote import and verification commands, and the error of the
optional cleanup command. -/
structure AttemptEnv where
  tarballStat : Except String Int
  scp : ScpEnv
  importOutput : String
  importErr : GoErr
  verifyOutput : String
  verifyErr : GoErr
  cleanupErr : GoErr
deriving Repr, DecidableEq

/-- `DistributeToWorker` from `distribute.go`: stat the tarball, SCP it,
run the import, verify the import, then (unless `keepTarballs`) clean up.
Returns the Go function's two results — the `DistributionResult` and the
raw error — plus the trace of remote steps executed. -/
def DistributeToWorker (keepTarballs : Bool) (w : WorkerNode)
    (component imageName : String) (env : AttemptEnv) :
    DistributionResult × GoErr × List Step :=
  match env.tarballStat with
  | .error e =>
    (⟨w, component, false, some ("cannot stat tarball: " ++ e)⟩, some e, [])
  | .ok _ =>
    match scpToWorker env.scp with
    | some e =>
      (⟨w, component, false, some ("SCP failed: " ++ e)⟩, some e, [.transfer])
    | none =>
      match importOnWorker env.importOutput env.importErr with
      | some e =>
        (⟨w, component, false, some ("import failed: " ++ e)⟩, some e,
          [.transfer, .imp])
      | none =>
        match VerifyImportOnWorker imageName env.verifyOutput env.verifyErr with
        | some e =>
          (⟨w, component, false, some ("verification failed: " ++ e)⟩, some e,
            [.transfer, .imp, .verify])
        | none =>
          if keepTarballs then
            (⟨w, component, true, none⟩, none, [.transfer, .imp, .verify])
          else
            let _ := CleanupOnWorker env.cleanupErr
            (⟨w, component, true, none⟩, none, [.transfer, .imp, .verify, .cleanup])

/-- The retry loop of one node task inside `DistributeToAllWorkers`:
`attempt` is the Go loop counter, `remaining` the iterations left
(`RetryCount` minus the attempts already made), `lastErr` the error of the
previous failed attempt.  Returns the node's recorded `DistributionResult`
and the list of attempt numbers actually performed, in order. -/
def runAttempts (keepTarballs : Bool) (w : WorkerNode) (component imageName : String)
    (envs : Nat → AttemptEnv) (attempt : Nat) :
    Nat → GoErr → DistributionResult × List Nat
  | 0, lastErr => (⟨w, component, false, lastErr⟩, [])
  | remaining + 1, _lastErr =>
    let r := DistributeToWorker keepTarballs w component imageName (envs attempt)
    match r.2.1 with
    | none => (r.1, [attempt])
    | some e =>
      let rest := runAttempts keepTarballs w component imageName envs
        (attempt + 1) remaining (some e)
      (rest.1, attempt :: rest.2)

/-- The full per-node task of `DistributeToAllWorkers`: attempts run from 1
up to `RetryCount` (so a zero or negative `RetryCount` makes no attempt and
leaves `lastErr` at `nil`). -/
def nodeOutcome (d : Distributor) (w : WorkerNode) (component imageName : String)
    (envs : Nat → AttemptEnv) : DistributionResult × List Nat :=
  runAttempts d.keepTarballs w component imageName envs 1 d.retryCount.toNat none

/-- Indexed map used to embed Go loops of the shape
`for i, x := range xs`, starting the index at `start`. -/
def mapIdxAux {α β : Type} (f : Nat → α → β) : Nat → List α → List β
  | _, [] => []
  | start, a :: as => f start a :: mapIdxAux f (start + 1) as

/-- `minRequired` as computed in `DistributeToAllWorkers`:
`MinWorkers`, except that `0` means all workers are required. -/
def effectiveMinWorkers (minWorkers : Int) (workerCount : Nat) : Int :=
  if minWorkers = 0 then (workerCount : Int) else minWorkers

/-- `DistributeToAllWorkers` from `distribute.go`.  Each node task writes
exactly its own slot of the results slice, so the results are independent
of goroutine scheduling and the fan-out is embedded as an indexed map;
`envs i a` is the environment of node `i`'s attempt number `a`. -/
def DistributeToAllWorkers (d : Distributor) (workers : List WorkerNode)
    (component imageName : String) (envs : Nat → Nat → AttemptEnv) :
    List DistributionResult × GoErr :=
  let results := mapIdxAux
    (fun i w => (nodeOutcome d w component imageName (envs i)).1) 0 workers
  let successCount := (results.filter (·.success)).length
  let minRequired := effectiveMinWorkers d.minWorkers workers.length
  if (successCount : Int) < minRequired then
    (results, some ("only " ++ toString successCount ++ "/" ++
      toString workers.length ++ " workers received image (minimum: " ++
      toString minRequired ++ ")"))
  else
    (results, none)

/-- The per-worker failure entry appended by `TestConnectivity`:
`"<name> (<ip>): <err>"`. -/
def connectivityFailure (w : WorkerNode) (e : String) : String :=
  w.name ++ " (" ++ w.ip ++ "): " ++ e

/-- The aggregated connectivity error message of `TestConnectivity`. -/
def connectivityErrorMsg (user : String) (failures : List String) : String :=
  "SSH connectivity failed:\n  " ++ String.intercalate "\n  " failures ++
    "\n\nTo fix:\n  1. Copy SSH key: ssh-copy-id " ++ user ++
    "@<worker-ip>\n  2. Or specify different key: --ssh-key ~/.ssh/other_key"

/-- The failures slice built by the loop of `TestConnectivity`: one entry
per worker whose probe (`hostname` over SSH, outcome `probe i`) failed,
in worker order. -/
def connectivityFailures (probe : Nat → GoErr) : Nat → List WorkerNode → List String
  | _, [] => []
  | i, w :: ws =>
    match probe i with
    | some e => connectivityFailure w e :: connectivityFailures probe (i + 1) ws
    | none => connectivityFailures probe (i + 1) ws

/-- The per-worker mutation of the loop of `TestConnectivity`: on probe
failure set `Reachable := false` and record `LastError`; on success set
`Reachable := true` (leaving `LastError` untouched). -/
def markReachability (probe : Nat → GoErr) : Nat → List WorkerNode → List WorkerNode
  | _, [] => []
  | i, w :: ws =>
    let w2 := match probe i with
      | some e => { w with reachable := false, lastError := some e }
      | none => { w with reachable := true }
    w2 :: markReachability probe (i + 1) ws

/-- `TestConnectivity` from `distribute.go`: probes every worker in order,
mutating each worker's reachability state, and returns the updated workers
together with `nil` or the single aggregated error. -/
def TestConnectivity (user : String) (workers : List WorkerNode)
    (probe : Nat → GoErr) : List WorkerNode × GoErr :=
  let updated := markReachability probe 0 workers
  let failures := connectivityFailures probe 0 workers
  if failures.length > 0 then
    (updated, some (connectivityErrorMsg user failures))
  else
    (updated, none)

/-- A typed node address from the `kubectl get nodes -o json` response. -/
structure K8sAddress where
  type_ : String
  address : String
deriving Repr, DecidableEq

/-- A node from the `kubectl get nodes -o json` response; `labels` are the
label keys (the values are never inspected by the source). -/
structure K8sNode where
  name : String
  labels : List String
  addresses : List K8sAddress
deriving Repr, DecidableEq

/-- The control-plane test of `GetWorkerIPs` (`k8s.go`): some label key
contains `"control-plane"` or `"master"` as a substring. -/
def isControlPlane (n : K8sNode) : Bool :=
  n.labels.any (fun l => goContains l "control-plane" || goContains l "master")

/-- The `workerIPs` slice built by the loop of `GetWorkerIPs` (`k8s.go`):
skip control-plane nodes, take each remaining node's first `InternalIP`
address (a node without one contributes nothing). -/
def discoveredWorkerIPs (nodes : List K8sNode) : List String :=
  nodes.filterMap (fun n =>
    if isControlPlane n then none
    else (n.addresses.find? (fun a => a.type_ == "InternalIP")).map (·.address))

/-- `GetWorkerIPs` from `k8s.go` given a parsed node list: fail when the
collected list is empty. -/
def GetWorkerIPs (nodes : List K8sNode) : Except String (List String) :=
  if (discoveredWorkerIPs nodes).length = 0 then
    .error "no worker nodes found in cluster"
  else .ok (discoveredWorkerIPs nodes)

/-- The full `GetWorkerIPs` call as seen by `GetWorkerNodes`: `query` is
the outcome of `kubectl get nodes -o json` (an error, or the parsed node
list). -/
def getWorkerIPsResult (query : Except String (List K8sNode)) :
    Except String (List String) :=
  match query with
  | .error e => .error ("failed to get nodes: " ++ e)
  | .ok nodes => GetWorkerIPs nodes

/-- `GetWorkerNodes` from `distribute.go`.  The returned `Bool` records
whether the cluster API was queried; the manual branch never queries. -/
def GetWorkerNodes (d : Distributor) (query : Except String (List K8sNode)) :
    Except String (List WorkerNode) × Bool :=
  if d.workerIPs.length > 0 then
    (.ok (mapIdxAux
      (fun i ip => ⟨"worker-" ++ toString (i + 1), ip, false, none⟩) 0 d.workerIPs),
      false)
  else
    match getWorkerIPsResult query with
    | .error e => (.error ("failed to get worker IPs from k8s: " ++ e), true)
    | .ok ips =>
      if ips.length = 0 then
        (.error "no worker nodes found in cluster", true)
      else
        (.ok (ips.map (fun ip => ⟨"worker-" ++ ip, ip, false, none⟩)), true)

/-! ### Concrete sample inputs, used to exercise the theorems -/

/-- A sample worker node. -/
def sampleWorker : WorkerNode := ⟨"w1", "10.0.0.1", false, none⟩

/-- A second sample worker node. -/
def sampleWorker2 : WorkerNode := ⟨"w2", "10.0.0.2", false, none⟩

/-- An `scpToWorker` environment in which every stream step succeeds and the
remote size query reports the local size. -/
def okScpEnv : ScpEnv :=
  ⟨.ok 100, none, none, none, none, none, none, none, "100", none⟩

/-- An `scpToWorker` environment in which every stream step succeeds but the
remote size query reports one byte short. -/
def mismatchScpEnv : ScpEnv :=
  ⟨.ok 100, none, none, none, none, none, none, none, "99", none⟩

/-- An attempt environment in which every pipeline step succeeds. -/
def okAttemptEnv : AttemptEnv := ⟨.ok 100, okScpEnv, "", none, "img", none, none⟩

/-- An attempt environment in which the transfer fails with a size mismatch
while every byte-stream step reports success. -/
def failAttemptEnv : AttemptEnv :=
  ⟨.ok 100, mismatchScpEnv, "", none, "img", none, none⟩

/-- A sample control-plane cluster node. -/
def sampleCPNode : K8sNode :=
  ⟨"cp", ["node-role.kubernetes.io/control-plane"], [⟨"InternalIP", "10.0.0.1"⟩]⟩

/-- A sample worker cluster node with a hostname and an internal IP. -/
def sampleK8sWorker : K8sNode :=
  ⟨"n1", ["kubernetes.io/os"], [⟨"Hostname", "n1"⟩, ⟨"InternalIP", "10.0.0.5"⟩]⟩

/-! ### Helper lemmas -/

theorem length_mapIdxAux {α β : Type} (f : Nat → α → β) :
    ∀ (s : Nat) (l : List α), (mapIdxAux f s l).length = l.length
  | _, [] => rfl
  | s, _ :: as => by simp [mapIdxAux, length_mapIdxAux f (s + 1) as]

theorem getElem?_mapIdxAux {α β : Type} (f : Nat → α → β) :
    ∀ (l : List α) (s i : Nat),
      (mapIdxAux f s l)[i]? = (l[i]?).map (f (s + i)) := by
  intro l
  induction l with
  | nil => intro s i; simp [mapIdxAux]
  | cons a as ih =>
    intro s i
    cases i with
    | zero => simp [mapIdxAux]
    | succ j =>
      have harith : s + (j + 1) = s + 1 + j := by omega
      simp [mapIdxAux, ih (s + 1) j, harith]

theorem distributeToWorker_fields (k : Bool) (w : WorkerNode) (c img : String)
    (env : AttemptEnv) :
    (DistributeToWorker k w c img env).1.worker = w ∧
    (DistributeToWorker k w c img env).1.component = c := by
  unfold DistributeToWorker
  split
  · simp
  · split
    · simp
    · split
      · simp
      · split
        · simp
        · split <;> simp

theorem runAttempts_fields (k : Bool) (w : WorkerNode) (c img : String)
    (envs : Nat → AttemptEnv) :
    ∀ (r a : Nat) (le : GoErr),
      (runAttempts k w c img envs a r le).1.worker = w ∧
      (runAttempts k w c img envs a r le).1.component = c := by
  intro r
  induction r with
  | zero => intro a le; simp [runAttempts]
  | succ n ih =>
    intro a le
    unfold runAttempts
    dsimp only
    cases h : (DistributeToWorker k w c img (envs a)).2.1 with
    | none => simpa using distributeToWorker_fields k w c img (envs a)
    | some e => simpa using ih (a + 1) (some e)

theorem distributeToAllWorkers_fst (d : Distributor) (workers : List WorkerNode)
    (c img : String) (envs : Nat → Nat → AttemptEnv) :
    (DistributeToAllWorkers d workers c img envs).1 =
      mapIdxAux (fun i w => (nodeOutcome d w c img (envs i)).1) 0 workers := by
  unfold DistributeToAllWorkers
  dsimp only
  split <;> rfl

theorem mapIdxAux_eq_map {α β : Type} (f : Nat → α → β) (g : α → β)
    (hfg : ∀ i a, f i a = g a) :
    ∀ (s : Nat) (l : List α), mapIdxAux f s l = l.map g
  | _, [] => rfl
  | s, a :: as => by
    simp [mapIdxAux, hfg, mapIdxAux_eq_map f g hfg (s + 1) as]

theorem runAttempts_all_fail (k : Bool) (w : WorkerNode) (c img : String)
    (envs : Nat → AttemptEnv) :
    ∀ (r a : Nat) (le : GoErr),
      (∀ j, a ≤ j → j < a + (r + 1) →
        (DistributeToWorker k w c img (envs j)).2.1 ≠ none) →
      (runAttempts k w c img envs a (r + 1) le).2 = List.range' a (r + 1) ∧
      (runAttempts k w c img envs a (r + 1) le).1 =
        ⟨w, c, false, (DistributeToWorker k w c img (envs (a + r))).2.1⟩ := by
  intro r
  induction r with
  | zero =>
    intro a le hfail
    have h := hfail a (Nat.le_refl a) (by omega)
    unfold runAttempts
    dsimp only
    cases he : (DistributeToWorker k w c img (envs a)).2.1 with
    | none => exact absurd he h
    | some e => simp [runAttempts, he]
  | succ n ih =>
    intro a le hfail
    have h := hfail a (Nat.le_refl a) (by omega)
    unfold runAttempts
    dsimp only
    cases he : (DistributeToWorker k w c img (envs a)).2.1 with
    | none => exact absurd he h
    | some e =>
      have hrest := ih (a + 1) (some e) (fun j h1 h2 => hfail j (by omega) (by omega))
      have harith : a + 1 + n = a + (n + 1) := by omega
      rw [harith] at hrest
      refine ⟨?_, by simpa using hrest.2⟩
      simp [hrest.1, List.range'_succ]

theorem length_markReachability (probe : Nat → GoErr) :
    ∀ (s : Nat) (l : List WorkerNode),
      (markReachability probe s l).length = l.length
  | _, [] => rfl
  | s, _ :: ws => by
    simp [markReachability, length_markReachability probe (s + 1) ws]

theorem getElem?_markReachability (probe : Nat → GoErr) :
    ∀ (l : List WorkerNode) (s i : Nat),
      (markReachability probe s l)[i]? =
        (l[i]?).map (fun w =>
          match probe (s + i) with
          | some e => { w with reachable := false, lastError := some e }
          | none => { w with reachable := true }) := by
  intro l
  induction l with
  | nil => intro s i; simp [markReachability]
  | cons w ws ih =>
    intro s i
    cases i with
    | zero => cases hp : probe s <;> simp [markReachability, hp]
    | succ j =>
      have harith : s + (j + 1) = s + 1 + j := by omega
      simp [markReachability, ih (s + 1) j, harith]

theorem connectivityFailures_eq_nil_iff (probe : Nat → GoErr) :
    ∀ (l : List WorkerNode) (s : Nat),
      connectivityFailures probe s l = [] ↔
        ∀ i, i < l.length → probe (s + i) = none := by
  intro l
  induction l with
  | nil => intro s; simp [connectivityFailures]
  | cons w ws ih =>
    intro s
    cases hp : probe s with
    | some e =>
      simp only [connectivityFailures, hp]
      constructor
      · intro h; exact absurd h (List.cons_ne_nil _ _)
      · intro h
        have h0 := h 0 (by simp)
        rw [Nat.add_zero, hp] at h0
        exact absurd h0 (by simp)
    | none =>
      simp only [connectivityFailures, hp]
      rw [ih (s + 1)]
      constructor
      · intro h i hi
        cases i with
        | zero => rw [Nat.add_zero]; exact hp
        | succ j =>
          have harith : s + (j + 1) = s + 1 + j := by omega
          rw [harith]
          exact h j (by simpa using hi)
      · intro h i hi
        have harith : s + 1 + i = s + (i + 1) := by omega
        rw [harith]
        exact h (i + 1) (by simpa using hi)

theorem connectivityFailure_mem (probe : Nat → GoErr) :
    ∀ (l : List WorkerNode) (s i : Nat) (e : String) (w0 : WorkerNode),
      l[i]? = some w0 → probe (s + i) = some e →
      connectivityFailure w0 e ∈ connectivityFailures probe s l := by
  intro l
  induction l with
  | nil => intro s i e w0 h; simp at h
  | cons w ws ih =>
    intro s i e w0 hw hp
    cases i with
    | zero =>
      have hw0 : w = w0 := by simpa using hw
      subst hw0
      rw [Nat.add_zero] at hp
      simp [connectivityFailures, hp]
    | succ j =>
      have hw2 : ws[j]? = some w0 := by simpa using hw
      have hp2 : probe (s + 1 + j) = some e := by
        rw [show s + 1 + j = s + (j + 1) by omega]; exact hp
      have hmem := ih (s + 1) j e w0 hw2 hp2
      cases hps : probe s <;> simp [connectivityFailures, hps, hmem]

theorem discoveredWorkerIPs_eq_filter (nodes : List K8sNode) :
    discoveredWorkerIPs nodes =
      (nodes.filter (fun n => !isControlPlane n)).filterMap
        (fun n => (n.addresses.find? (fun a => a.type_ == "InternalIP")).map
          (·.address)) := by
  induction nodes with
  | nil => rfl
  | cons n ns ih =>
    cases hcp : isControlPlane n <;>
      simp [discoveredWorkerIPs, List.filter_cons, hcp, ← ih,
        List.filterMap_cons]

/-! ### Claim theorems -/

/-- C1: `DistributeToAllWorkers` returns a non-nil aggregate error exactly
when the number of successful results falls strictly below
`effectiveMinWorkers` (`len(workers)` when `MinWorkers = 0`, `MinWorkers`
otherwise). -/
theorem distributeToAllWorkers_error_iff_quorum_shortfall
    (d : Distributor) (workers : List WorkerNode) (c img : String)
    (envs : Nat → Nat → AttemptEnv) :
    (DistributeToAllWorkers d workers c img envs).2 ≠ none ↔
      ((((DistributeToAllWorkers d workers c img envs).1.filter
          (·.success)).length : Int) <
        effectiveMinWorkers d.minWorkers workers.length) := by
  unfold DistributeToAllWorkers
  dsimp only
  split
  · next h => simpa using h
  · next h => simpa using h

/-- C2: the result list of `DistributeToAllWorkers` has exactly one entry
per input worker, and the entry at each position `i` exists and refers to
the worker at position `i` of the input list (each node task writes only
its own slot, so this holds regardless of task completion order). -/
theorem distributeToAllWorkers_results_aligned
    (d : Distributor) (workers : List WorkerNode) (c img : String)
    (envs : Nat → Nat → AttemptEnv) :
    (DistributeToAllWorkers d workers c img envs).1.length = workers.length ∧
    ∀ (i : Nat) (w0 : WorkerNode), workers[i]? = some w0 →
      ∃ r : DistributionResult,
        (DistributeToAllWorkers d workers c img envs).1[i]? = some r ∧
        r.worker = w0 ∧ r.component = c := by
  rw [distributeToAllWorkers_fst]
  refine ⟨length_mapIdxAux _ 0 workers, ?_⟩
  intro i w0 hw
  rw [getElem?_mapIdxAux, hw]
  refine ⟨(nodeOutcome d w0 c img (envs (0 + i))).1, by simp, ?_, ?_⟩
  · exact (runAttempts_fields _ _ _ _ _ _ _ _).1
  · exact (runAttempts_fields _ _ _ _ _ _ _ _).2

/-- C2 witness: a concrete two-worker run (one success, one failure)
produces an aligned, complete result list. -/
theorem distributeToAllWorkers_results_aligned_witness :
    ∃ r : DistributionResult,
      (DistributeToAllWorkers ⟨3, 3, 0, false, []⟩
        [⟨"w1", "10.0.0.1", false, none⟩, ⟨"w2", "10.0.0.2", false, none⟩]
        "backend" "img" (fun _ _ =>
          ⟨.ok 100, ⟨.ok 100, none, none, none, none, none, none, none, "100", none⟩,
            "", none, "img", none, none⟩)).1[1]? = some r ∧
      r.worker = ⟨"w2", "10.0.0.2", false, none⟩ ∧ r.component = "backend" :=
  (distributeToAllWorkers_results_aligned ⟨3, 3, 0, false, []⟩
    [⟨"w1", "10.0.0.1", false, none⟩, ⟨"w2", "10.0.0.2", false, none⟩]
    "backend" "img" (fun _ _ =>
      ⟨.ok 100, ⟨.ok 100, none, none, none, none, none, none, none, "100", none⟩,
        "", none, "img", none, none⟩)).2 1 ⟨"w2", "10.0.0.2", false, none⟩ (by decide)

/-- C3: with `retryCount ≥ 1`, a node whose single-node distribution fails
on every attempt is attempted exactly `retryCount` times — the attempt
numbers run sequentially from 1 through `retryCount` — and its final
recorded `DistributionResult` carries exactly the error of the last
attempt. -/
theorem retry_exhaustion_attempts_and_last_error
    (d : Distributor) (w : WorkerNode) (c img : String) (envs : Nat → AttemptEnv)
    (hretry : 1 ≤ d.retryCount)
    (hfail : ∀ a, (DistributeToWorker d.keepTarballs w c img (envs a)).2.1 ≠ none) :
    (nodeOutcome d w c img envs).2 = List.range' 1 d.retryCount.toNat ∧
    (nodeOutcome d w c img envs).2.length = d.retryCount.toNat ∧
    (nodeOutcome d w c img envs).1 =
      ⟨w, c, false,
        (DistributeToWorker d.keepTarballs w c img (envs d.retryCount.toNat)).2.1⟩ := by
  obtain ⟨r, hr⟩ : ∃ r, d.retryCount.toNat = r + 1 :=
    ⟨d.retryCount.toNat - 1, by omega⟩
  have h := runAttempts_all_fail d.keepTarballs w c img envs r 1 none
    (fun j _ _ => hfail j)
  unfold nodeOutcome
  rw [hr]
  have harith : 1 + r = r + 1 := by omega
  rw [harith] at h
  exact ⟨h.1, by simp [h.1], h.2⟩

/-- C3 witness: a two-attempt policy against a node whose transfer always
reports a size mismatch performs attempts 1 and 2 and records the last
attempt's error. -/
theorem retry_exhaustion_witness :
    (nodeOutcome ⟨3, 2, 0, false, []⟩ sampleWorker "c" "img"
      (fun _ => failAttemptEnv)).2 = List.range' 1 (Int.toNat 2) ∧
    (nodeOutcome ⟨3, 2, 0, false, []⟩ sampleWorker "c" "img"
      (fun _ => failAttemptEnv)).2.length = Int.toNat 2 ∧
    (nodeOutcome ⟨3, 2, 0, false, []⟩ sampleWorker "c" "img"
      (fun _ => failAttemptEnv)).1 =
      ⟨sampleWorker, "c", false,
        (DistributeToWorker false sampleWorker "c" "img" failAttemptEnv).2.1⟩ :=
  retry_exhaustion_attempts_and_last_error ⟨3, 2, 0, false, []⟩ sampleWorker
    "c" "img" (fun _ => failAttemptEnv) (by decide)
    (fun _ => by
      show (DistributeToWorker false sampleWorker "c" "img" failAttemptEnv).2.1 ≠ none
      decide)

/-- C10: with a zero or negative `RetryCount`, `DistributeToAllWorkers`
makes no distribution attempt for any node, records every node as failed
with a nil error, and with `MinWorkers = 0` on a non-empty worker list
always returns the quorum-shortfall error. -/
theorem distributeToAllWorkers_nonpositive_retry
    (d : Distributor) (workers : List WorkerNode) (c img : String)
    (envs : Nat → Nat → AttemptEnv) (hr : d.retryCount ≤ 0) :
    (∀ (w : WorkerNode) (e : Nat → AttemptEnv),
      nodeOutcome d w c img e = (⟨w, c, false, none⟩, [])) ∧
    (DistributeToAllWorkers d workers c img envs).1 =
      workers.map (fun w => ⟨w, c, false, none⟩) ∧
    (d.minWorkers = 0 → workers ≠ [] →
      (DistributeToAllWorkers d workers c img envs).2 =
        some ("only 0/" ++ toString workers.length ++
          " workers received image (minimum: " ++
          toString (effectiveMinWorkers d.minWorkers workers.length) ++ ")")) := by
  have ht : d.retryCount.toNat = 0 := by omega
  have hnode : ∀ (w : WorkerNode) (e : Nat → AttemptEnv),
      nodeOutcome d w c img e = (⟨w, c, false, none⟩, []) := by
    intro w e
    unfold nodeOutcome
    rw [ht]
    rfl
  have hfst : (DistributeToAllWorkers d workers c img envs).1 =
      workers.map (fun w => ⟨w, c, false, none⟩) := by
    rw [distributeToAllWorkers_fst]
    exact mapIdxAux_eq_map _ _ (fun i w => by rw [hnode w (envs i)]) 0 workers
  refine ⟨hnode, hfst, ?_⟩
  intro hmin hne
  have hlen : 0 < workers.length := List.length_pos.mpr hne
  unfold DistributeToAllWorkers
  dsimp only
  rw [distributeToAllWorkers_fst] at hfst
  rw [hfst]
  have hfilter : (List.filter (·.success)
      (workers.map (fun w => (⟨w, c, false, none⟩ : DistributionResult)))) = [] := by
    simp [List.filter_map]
  rw [hfilter]
  have hcond : ((List.length ([] : List DistributionResult) : Int) <
      effectiveMinWorkers d.minWorkers workers.length) := by
    simp [effectiveMinWorkers, hmin]
    exact_mod_cast hlen
  rw [if_pos hcond]
  rfl

/-- C10 witness: `RetryCount = 0`, `MinWorkers = 0`, one worker — the
aggregate quorum-shortfall error is returned. -/
theorem nonpositive_retry_witness :
    (DistributeToAllWorkers ⟨3, 0, 0, false, []⟩ [sampleWorker] "c" "img"
      (fun _ _ => failAttemptEnv)).2 =
      some ("only 0/" ++ toString [sampleWorker].length ++
        " workers received image (minimum: " ++
        toString (effectiveMinWorkers 0 [sampleWorker].length) ++ ")") :=
  (distributeToAllWorkers_nonpositive_retry ⟨3, 0, 0, false, []⟩ [sampleWorker]
    "c" "img" (fun _ _ => failAttemptEnv) (by decide)).2.2 rfl (by simp)

/-- C4: for a local archive of size `S`, `scpToWorker` returns nil exactly
when every stream step succeeded and the independently queried remote size
(the `stat -c%s` output, trimmed and parsed with the parse error ignored)
equals `S`; any other queried size yields an error even when the byte
stream itself reported no failure. -/
theorem scpToWorker_ok_iff_size_match (env : ScpEnv) (S : Int)
    (hstat : env.localStat = .ok S) :
    scpToWorker env = none ↔
      (env.openErr = none ∧ env.connectErr = none ∧ env.sessionErr = none ∧
       env.stdinErr = none ∧ env.startErr = none ∧ env.copyErr = none ∧
       env.waitErr = none ∧ env.checkErr = none ∧
       goParseInt64 (goTrimSpace env.checkOutput) = S) := by
  obtain ⟨ls, oe, ce, se, pe, te, ye, we, co, ke⟩ := env
  simp only at hstat
  subst hstat
  cases oe <;> cases ce <;> cases se <;> cases pe <;> cases te <;> cases ye <;>
    cases we <;> cases ke <;> simp [scpToWorker]

/-- C4 witness: with every stream step succeeding, a queried size of 100
against a local size of 100 yields nil, and a queried size of 99 yields an
error. -/
theorem scpToWorker_size_match_witness :
    scpToWorker okScpEnv = none ∧ scpToWorker mismatchScpEnv ≠ none :=
  ⟨(scpToWorker_ok_iff_size_match okScpEnv 100 rfl).mpr
      ⟨rfl, rfl, rfl, rfl, rfl, rfl, rfl, rfl, by decide⟩,
   fun h =>
     absurd ((scpToWorker_ok_iff_size_match mismatchScpEnv 100 rfl).mp
       h).2.2.2.2.2.2.2.2 (by decide)⟩

/-- C5: `DistributeToWorker` runs transfer, import, verification in that
order (its step trace is always a prefix of that pipeline), and the first
failing step produces a failed `DistributionResult` annotated with that
step, with no later step executed — in particular a transfer failure (such
as a size mismatch) leaves the import step unexecuted. -/
theorem distributeToWorker_step_order_and_abort
    (k : Bool) (w : WorkerNode) (c img : String) (env : AttemptEnv)
    (S : Int) (hstat : env.tarballStat = .ok S) :
    (DistributeToWorker k w c img env).2.2 <+:
      [Step.transfer, Step.imp, Step.verify, Step.cleanup] ∧
    (∀ e, scpToWorker env.scp = some e →
      DistributeToWorker k w c img env =
        (⟨w, c, false, some ("SCP failed: " ++ e)⟩, some e, [Step.transfer])) ∧
    (∀ e, scpToWorker env.scp = none →
      importOnWorker env.importOutput env.importErr = some e →
      DistributeToWorker k w c img env =
        (⟨w, c, false, some ("import failed: " ++ e)⟩, some e,
          [Step.transfer, Step.imp])) ∧
    (∀ e, scpToWorker env.scp = none →
      importOnWorker env.importOutput env.importErr = none →
      VerifyImportOnWorker img env.verifyOutput env.verifyErr = some e →
      DistributeToWorker k w c img env =
        (⟨w, c, false, some ("verification failed: " ++ e)⟩, some e,
          [Step.transfer, Step.imp, Step.verify])) := by
  unfold DistributeToWorker
  rw [hstat]
  dsimp only
  cases hscp : scpToWorker env.scp with
  | some e0 =>
    refine ⟨⟨[Step.imp, Step.verify, Step.cleanup], rfl⟩, ?_, by simp, by simp⟩
    intro e he
    obtain rfl : e0 = e := by injection he
    rfl
  | none =>
    cases himp : importOnWorker env.importOutput env.importErr with
    | some e0 =>
      refine ⟨⟨[Step.verify, Step.cleanup], rfl⟩, by simp, ?_, by simp⟩
      intro e _ he
      obtain rfl : e0 = e := by injection he
      rfl
    | none =>
      cases hver : VerifyImportOnWorker img env.verifyOutput env.verifyErr with
      | some e0 =>
        refine ⟨⟨[Step.cleanup], rfl⟩, by simp, by simp, ?_⟩
        intro e _ _ he
        obtain rfl : e0 = e := by injection he
        rfl
      | none =>
        cases k with
        | false => exact ⟨⟨[], rfl⟩, by simp, by simp, by simp⟩
        | true => exact ⟨⟨[Step.cleanup], rfl⟩, by simp, by simp, by simp⟩

/-- C5 witness: a transfer whose byte stream succeeds but whose remote
size check reports 99 of 100 bytes yields `Failed(SCP failed: size
mismatch)` with only the transfer step in the trace — no import
attempted. -/
theorem distributeToWorker_step_order_witness :
    DistributeToWorker false sampleWorker "c" "img" failAttemptEnv =
      (⟨sampleWorker, "c", false,
        some ("SCP failed: " ++ "size mismatch: local=100 remote=99")⟩,
       some "size mismatch: local=100 remote=99", [Step.transfer]) :=
  (distributeToWorker_step_order_and_abort false sampleWorker "c" "img"
      failAttemptEnv 100 rfl).2.1 "size mismatch: local=100 remote=99" (by decide)

/-- C6: `TestConnectivity` marks each worker's reachability flag (true on
probe success; false with `LastError` recorded on failure), returns nil
exactly when every probe succeeded, and otherwise returns the single
aggregated error built from one `name (ip): cause` entry per failed
worker. -/
theorem testConnectivity_flags_and_aggregate
    (user : String) (workers : List WorkerNode) (probe : Nat → GoErr) :
    ((TestConnectivity user workers probe).2 = none ↔
      ∀ i, i < workers.length → probe i = none) ∧
    ((TestConnectivity user workers probe).1.length = workers.length) ∧
    (∀ (i : Nat) (w0 : WorkerNode), workers[i]? = some w0 →
      (probe i = none →
        (TestConnectivity user workers probe).1[i]? =
          some { w0 with reachable := true }) ∧
      (∀ e, probe i = some e →
        (TestConnectivity user workers probe).1[i]? =
          some { w0 with reachable := false, lastError := some e })) ∧
    ((TestConnectivity user workers probe).2 ≠ none →
      (TestConnectivity user workers probe).2 =
        some (connectivityErrorMsg user (connectivityFailures probe 0 workers))) ∧
    (∀ (i : Nat) (w0 : WorkerNode) (e : String),
      workers[i]? = some w0 → probe i = some e →
      connectivityFailure w0 e ∈ connectivityFailures probe 0 workers) := by
  have hfst : (TestConnectivity user workers probe).1 =
      markReachability probe 0 workers := by
    unfold TestConnectivity
    dsimp only
    split <;> rfl
  have hsnd : (TestConnectivity user workers probe).2 =
      if (connectivityFailures probe 0 workers).length > 0 then
        some (connectivityErrorMsg user (connectivityFailures probe 0 workers))
      else none := by
    unfold TestConnectivity
    dsimp only
    split <;> simp_all
  have hnil := connectivityFailures_eq_nil_iff probe workers 0
  simp only [Nat.zero_add] at hnil
  refine ⟨?_, ?_, ?_, ?_, ?_⟩
  · rw [hsnd]
    by_cases hc : (connectivityFailures probe 0 workers).length > 0
    · rw [if_pos hc]
      constructor
      · intro h; exact absurd h (by simp)
      · intro h
        rw [hnil.mpr h] at hc
        exact absurd hc (by simp)
    · rw [if_neg hc]
      have hempty : connectivityFailures probe 0 workers = [] :=
        List.eq_nil_of_length_eq_zero (by omega)
      exact iff_of_true rfl (hnil.mp hempty)
  · rw [hfst, length_markReachability]
  · intro i w0 hw
    constructor
    · intro hp
      rw [hfst, getElem?_markReachability, hw]
      simp [hp]
    · intro e hp
      rw [hfst, getElem?_markReachability, hw]
      simp [hp]
  · intro hne
    rw [hsnd] at hne ⊢
    by_cases hc : (connectivityFailures probe 0 workers).length > 0
    · rw [if_pos hc]
    · rw [if_neg hc] at hne
      exact absurd rfl hne
  · intro i w0 e hw hp
    exact connectivityFailure_mem probe workers 0 i e w0 hw (by simpa using hp)

/-- C6 witness: with worker 2's probe failing, its flag is cleared with the
error recorded, and its `name (ip): cause` entry appears in the failures
list behind the aggregated error. -/
theorem testConnectivity_witness :
    (TestConnectivity "root" [sampleWorker, sampleWorker2]
      (fun i => if i = 1 then some "dial failed" else none)).1[1]? =
      some { sampleWorker2 with reachable := false, lastError := some "dial failed" } ∧
    connectivityFailure sampleWorker2 "dial failed" ∈
      connectivityFailures (fun i => if i = 1 then some "dial failed" else none)
        0 [sampleWorker, sampleWorker2] :=
  ⟨((testConnectivity_flags_and_aggregate "root" [sampleWorker, sampleWorker2]
      (fun i => if i = 1 then some "dial failed" else none)).2.2.1 1 sampleWorker2
      (by decide)).2 "dial failed" (by decide),
   (testConnectivity_flags_and_aggregate "root" [sampleWorker, sampleWorker2]
      (fun i => if i = 1 then some "dial failed" else none)).2.2.2.2 1
      sampleWorker2 "dial failed" (by decide) (by decide)⟩

/-- C7: with a non-empty explicit address list, `GetWorkerNodes` returns
one node per address named `worker-<index>` without querying the cluster
API; otherwise it queries the API, keeps exactly the non-control-plane
nodes' internal IPs, and errors when the query fails or the filtered set
is empty. -/
theorem getWorkerNodes_manual_and_discovery
    (d : Distributor) (query : Except String (List K8sNode)) :
    (d.workerIPs ≠ [] →
      (GetWorkerNodes d query).2 = false ∧
      ∃ ws : List WorkerNode, (GetWorkerNodes d query).1 = .ok ws ∧
        ws.length = d.workerIPs.length ∧
        ∀ (i : Nat) (ip : String), d.workerIPs[i]? = some ip →
          ws[i]? = some ⟨"worker-" ++ toString (i + 1), ip, false, none⟩) ∧
    (d.workerIPs = [] →
      (GetWorkerNodes d query).2 = true ∧
      (∀ e, query = .error e →
        (GetWorkerNodes d query).1 =
          .error ("failed to get worker IPs from k8s: " ++
            ("failed to get nodes: " ++ e))) ∧
      (∀ nodes, query = .ok nodes →
        (discoveredWorkerIPs nodes = [] →
          (GetWorkerNodes d query).1 =
            .error "failed to get worker IPs from k8s: no worker nodes found in cluster") ∧
        (discoveredWorkerIPs nodes ≠ [] →
          (GetWorkerNodes d query).1 =
            .ok ((discoveredWorkerIPs nodes).map
              (fun ip => ⟨"worker-" ++ ip, ip, false, none⟩))) ∧
        discoveredWorkerIPs nodes =
          (nodes.filter (fun n => !isControlPlane n)).filterMap
            (fun n => (n.addresses.find? (fun a => a.type_ == "InternalIP")).map
              (·.address)))) := by
  constructor
  · intro hne
    have hpos : d.workerIPs.length > 0 := List.length_pos.mpr hne
    unfold GetWorkerNodes
    rw [if_pos hpos]
    refine ⟨rfl, _, rfl, length_mapIdxAux _ 0 _, ?_⟩
    intro i ip hip
    rw [getElem?_mapIdxAux, hip]
    simp
  · intro he
    unfold GetWorkerNodes
    rw [he]
    rw [if_neg (by simp)]
    cases query with
    | error e =>
      refine ⟨rfl, ?_, ?_⟩
      · intro e2 he2
        obtain rfl : e = e2 := by injection he2
        rfl
      · intro nodes hq
        exact absurd hq (by simp)
    | ok nodes =>
      refine ⟨?_, ?_, ?_⟩
      · cases hr : getWorkerIPsResult (Except.ok nodes) with
        | error e => rfl
        | ok ips =>
          show (if ips.length = 0 then _ else _ : _ × Bool).2 = true
          split <;> rfl
      · intro e2 he2
        exact absurd he2 (by simp)
      · intro nodes2 hq
        obtain rfl : nodes = nodes2 := by injection hq
        refine ⟨?_, ?_, discoveredWorkerIPs_eq_filter nodes⟩
        · intro hd
          unfold getWorkerIPsResult GetWorkerIPs
          dsimp only
          rw [hd]
          rfl
        · intro hd
          have hlen : ¬((discoveredWorkerIPs nodes).length = 0) := by
            simpa [List.length_eq_zero] using hd
          unfold getWorkerIPsResult GetWorkerIPs
          dsimp only
          rw [if_neg hlen]
          dsimp only
          rw [if_neg hlen]

/-- C7 witness: a two-address manual list is used without a query even
when the query would fail; discovery on a control-plane node plus one
worker yields that worker's internal IP. -/
theorem getWorkerNodes_witness :
    (GetWorkerNodes ⟨3, 3, 0, false, ["10.0.0.1", "10.0.0.2"]⟩
      (.error "boom")).2 = false ∧
    (GetWorkerNodes ⟨3, 3, 0, false, []⟩
      (.ok [sampleCPNode, sampleK8sWorker])).1 =
      .ok ((discoveredWorkerIPs [sampleCPNode, sampleK8sWorker]).map
        (fun ip => ⟨"worker-" ++ ip, ip, false, none⟩)) :=
  ⟨((getWorkerNodes_manual_and_discovery ⟨3, 3, 0, false, ["10.0.0.1", "10.0.0.2"]⟩
      (.error "boom")).1 (by simp)).1,
   ((((getWorkerNodes_manual_and_discovery ⟨3, 3, 0, false, []⟩
      (.ok [sampleCPNode, sampleK8sWorker])).2 rfl).2.2
      [sampleCPNode, sampleK8sWorker] rfl).2.1 (by decide))⟩

/-- C8: once transfer, import and verification have all succeeded,
`DistributeToWorker` returns `Success = true` with a nil error regardless
of any cleanup failure, and the cleanup step runs exactly when
`KeepTarballs` is unset. -/
theorem distributeToWorker_cleanup_frame
    (w : WorkerNode) (c img : String) (env : AttemptEnv) (S : Int)
    (h1 : env.tarballStat = .ok S)
    (h2 : scpToWorker env.scp = none)
    (h3 : importOnWorker env.importOutput env.importErr = none)
    (h4 : VerifyImportOnWorker img env.verifyOutput env.verifyErr = none) :
    (∀ (keep : Bool) (e : GoErr),
      (DistributeToWorker keep w c img { env with cleanupErr := e }).1 =
        ⟨w, c, true, none⟩ ∧
      (DistributeToWorker keep w c img { env with cleanupErr := e }).2.1 = none) ∧
    Step.cleanup ∈ (DistributeToWorker false w c img env).2.2 ∧
    Step.cleanup ∉ (DistributeToWorker true w c img env).2.2 := by
  obtain ⟨ts, scp, io, ie, vo, ve, ce⟩ := env
  simp only at h1 h2 h3 h4
  subst h1
  refine ⟨?_, ?_, ?_⟩
  · intro keep e
    cases keep <;> simp [DistributeToWorker, h2, h3, h4]
  · simp [DistributeToWorker, h2, h3, h4]
  · simp [DistributeToWorker, h2, h3, h4]

/-- C8 witness: a fully successful pipeline with a failing remote cleanup
still reports success with a nil error, and the cleanup step did run. -/
theorem distributeToWorker_cleanup_frame_witness :
    (DistributeToWorker false sampleWorker "c" "img"
      { okAttemptEnv with cleanupErr := some "rm failed" }).1 =
      ⟨sampleWorker, "c", true, none⟩ ∧
    Step.cleanup ∈ (DistributeToWorker false sampleWorker "c" "img"
      okAttemptEnv).2.2 :=
  ⟨((distributeToWorker_cleanup_frame sampleWorker "c" "img" okAttemptEnv 100
      rfl (by decide) rfl (by decide)).1 false (some "rm failed")).1,
   (distributeToWorker_cleanup_frame sampleWorker "c" "img" okAttemptEnv 100
      rfl (by decide) rfl (by decide)).2.1⟩

/-- C9: `VerifyImportOnWorker` returns nil exactly when the remote listing
command succeeded and the image name occurs as a substring of its combined
output — so output where the name appears only inside a longer, different
image reference also passes. -/
theorem verifyImportOnWorker_ok_iff (imageName output : String) (execErr : GoErr) :
    (VerifyImportOnWorker imageName output execErr = none ↔
      execErr = none ∧ goContains output imageName = true) ∧
    VerifyImportOnWorker "repo/app:v1" "repo/app:v10  sha256:abc" none = none := by
  constructor
  · cases execErr with
    | none =>
      cases hgc : goContains output imageName <;>
        simp [VerifyImportOnWorker, hgc]
    | some e => simp [VerifyImportOnWorker]
  · decide

end M2Deploy
